import Mathlib

/-!
Verification of the notecraft draft persistence and source-aggregation core.

The development shallowly embeds the two persistence hooks of the repository:

* `useLocalDrafts.ts` — the multi-draft index store: content metrics
  (`stripHtml`, `countWords`, `makeExcerpt`), the `DraftFull` record, the
  `saveDraft` upsert with recomputed derived metadata and recency sort, and
  `loadAll` with its parse-failure recovery.
* `useLocalDraft.ts` (demo-mode variant) — the single-draft store: mount-time
  load with demo detection, the debounced `saveDraft` write path shared by the
  four mutations, `dismissDemo`, and the add/remove source operations.

Strings are modelled as Lean `String`/`List Char`; JavaScript regular
expression replacement is modelled character by character, and timestamps as
`Nat` milliseconds.  Storage cells hold an `Option (Blob α)`: `none` for an
absent key, `Blob.malformed` for a present value whose JSON parse throws, and
`Blob.valid a` for a value parsing to `a`.  The debounce timer is modelled as
explicit state (the pending payload and its due time) together with a trace
function computing which scheduled writes actually fire.
-/

namespace Notecraft

/-! ### Content metrics (useLocalDrafts.ts, lines 26–39) -/

/-- The JavaScript regular-expression whitespace class `\s`: space, tab, line
feed, vertical tab, form feed, carriage return, and the Unicode space
separators, line separators and BOM recognised by JS engines. -/
def isWs (c : Char) : Bool :=
  c = ' ' || c = '\t' || c = '\n' || c.val = 0x0b || c.val = 0x0c ||
  c = '\r' || c.val = 0xa0 || c.val = 0x1680 ||
  (0x2000 ≤ c.val && c.val ≤ 0x200a) || c.val = 0x2028 || c.val = 0x2029 ||
  c.val = 0x202f || c.val = 0x205f || c.val = 0x3000 || c.val = 0xfeff

/-- One pass of `html.replace(/<[^>]*>/g, " ")`.  The second argument is
`none` while scanning outside a candidate tag; it is `some buf` (with `buf`
the reversed characters consumed since the opening `<`, inclusive) while
looking for the closing `>`.  A completed `<...>` group is replaced by a
single space; a `<` never followed by `>` fails to match and its buffered
characters are emitted literally, exactly as the regex leaves them. -/
def stripTagsAux : List Char → Option (List Char) → List Char
  | [], none => []
  | [], some buf => buf.reverse
  | c :: rest, none =>
    if c = '<' then stripTagsAux rest (some [c]) else c :: stripTagsAux rest none
  | c :: rest, some buf =>
    if c = '>' then ' ' :: stripTagsAux rest none
    else stripTagsAux rest (some (c :: buf))

/-- `html.replace(/<[^>]*>/g, " ")` on a character list. -/
def stripTags (l : List Char) : List Char := stripTagsAux l none

mutual

/-- `text.replace(/\s+/g, " ")`: each maximal run of whitespace collapses to a
single space.  `collapseWs` scans outside a run. -/
def collapseWs : List Char → List Char
  | [] => []
  | c :: rest =>
    if isWs c then ' ' :: collapseSkip rest else c :: collapseWs rest

/-- Continuation of `collapseWs` inside a whitespace run whose single
replacement space has already been emitted. -/
def collapseSkip : List Char → List Char
  | [] => []
  | c :: rest =>
    if isWs c then collapseSkip rest else c :: collapseWs rest

end

/-- `text.trim()`: remove leading and trailing whitespace. -/
def trimWs (l : List Char) : List Char :=
  ((l.dropWhile isWs).reverse.dropWhile isWs).reverse

/-- `stripHtml(html)`: replace tags by spaces, collapse whitespace runs, trim
(useLocalDrafts.ts, lines 26–28). -/
def stripHtml (html : String) : String :=
  ⟨trimWs (collapseWs (stripTags html.data))⟩

mutual

/-- `text.split(/\s+/)` on a character list: the accumulator holds the
reversed characters of the token currently being read.  A whitespace run ends
the current token (possibly empty, as JS `split` produces for a leading
separator) and switches to `splitWsSkip`. -/
def splitWsAux : List Char → List Char → List (List Char)
  | [], acc => [acc.reverse]
  | c :: rest, acc =>
    if isWs c then acc.reverse :: splitWsSkip rest
    else splitWsAux rest (c :: acc)

/-- Continuation of `splitWsAux` inside a separator run; reaching the end of
input here yields the trailing empty token JS `split` produces. -/
def splitWsSkip : List Char → List (List Char)
  | [] => [[]]
  | c :: rest =>
    if isWs c then splitWsSkip rest else splitWsAux rest [c]

end

/-- `countWords(html)` (useLocalDrafts.ts, lines 30–34): strip the markup; an
empty result counts 0; otherwise split on whitespace runs, filter out empty
tokens, count. -/
def countWords (html : String) : Nat :=
  let text := stripHtml html
  if text = "" then 0
  else ((splitWsAux text.data []).filter (fun t => t ≠ [])).length

/-- `makeExcerpt(html)` (useLocalDrafts.ts, lines 36–39): the stripped text,
truncated to its first 80 characters followed by one ellipsis character when
longer than 80. -/
def makeExcerpt (html : String) : String :=
  let text := stripHtml html
  if text.length > 80 then ⟨text.data.take 80 ++ ['…']⟩ else text

/-! ### Data model (useLocalDraft.ts and useLocalDrafts.ts) -/

/-- The closed set of source kinds: `"link" | "text" | "pdf"`. -/
inductive SourceType where
  | link
  | text
  | pdf
deriving DecidableEq

/-- One reference material attached to a draft (useLocalDraft.ts). -/
structure Source where
  id : String
  type : SourceType
  title : String
  url : Option String
  content : Option String
deriving DecidableEq

/-- The single-draft record: title, rich HTML content, ordered source list. -/
structure Draft where
  title : String
  content : String
  sources : List Source
deriving DecidableEq

/-- A multi-draft entry: identity, metadata and full content
(useLocalDrafts.ts, `DraftMeta`/`DraftFull`). -/
structure DraftFull where
  id : String
  title : String
  updatedAt : Nat
  wordCount : Nat
  sourceCount : Nat
  excerpt : String
  content : String
  sources : List Source
deriving DecidableEq

/-- A value present in a storage cell: either it parses to an `α` or
`JSON.parse` throws on it.  A whole cell is `Option (Blob α)`, `none` meaning
the key is absent. -/
inductive Blob (α : Type) where
  | valid (a : α)
  | malformed
deriving DecidableEq

/-! ### Multi-draft index store (useLocalDrafts.ts, lines 41–127) -/

/-- The `enriched` record built at the top of `saveDraft` (lines 99–105):
`updatedAt` becomes the current time and every derived field is recomputed
from `content`/`sources`, overwriting whatever the caller passed. -/
def enrich (now : Nat) (draft : DraftFull) : DraftFull :=
  { draft with
    updatedAt := now
    wordCount := countWords draft.content
    sourceCount := draft.sources.length
    excerpt := makeExcerpt draft.content }

/-- The comparator `(a, b) => b.updatedAt - a.updatedAt`: `a` may precede `b`
exactly when `a.updatedAt ≥ b.updatedAt` (descending recency). -/
def byRecency (a b : DraftFull) : Bool :=
  b.updatedAt ≤ a.updatedAt

/-- `saveDraft(draft)` of the multi-draft store (lines 98–120): enrich, then
replace the entry with the same id if one exists (else prepend), then sort by
`updatedAt` descending — `Array.prototype.sort` is stable, as is `mergeSort` —
and return the new collection, which is also what `saveAll` persists. -/
def saveDraft (now : Nat) (draft : DraftFull) (prev : List DraftFull) :
    List DraftFull :=
  let enriched := enrich now draft
  let updated :=
    match prev.findIdx? (fun d => d.id = draft.id) with
    | some idx => prev.set idx enriched
    | none => enriched :: prev
  updated.mergeSort byRecency

/-- `loadAll()` (lines 41–49): an absent key yields `[]`; a parse failure is
caught and yields `[]`; otherwise the parsed collection. -/
def loadAll (cell : Option (Blob (List DraftFull))) : List DraftFull :=
  match cell with
  | none => []
  | some Blob.malformed => []
  | some (Blob.valid drafts) => drafts

/-! ### Single-draft store (useLocalDraft.ts, demo-mode variant) -/

/-- `DEFAULT_DRAFT`: empty title, empty content, no sources. -/
def DEFAULT_DRAFT : Draft := { title := "", content := "", sources := [] }

/-- `DEBOUNCE_MS = 500`. -/
def DEBOUNCE_MS : Nat := 500

/-- The outcome of the mount-time load effect: the hydrated draft, the demo
flag, and the visited-marker cell after the effect ran. -/
structure LoadOut where
  draft : Draft
  isDemoMode : Bool
  visitedAfter : Bool
deriving DecidableEq

/-- The mount-time `useEffect` of `useLocalDraft` (lines 94–127).  Inputs:
the single-draft storage cell, the presence of the visited marker, the
presence of a `?demo` URL parameter, and the optional `initialDraft` demo
seed.  Follows the code: detect demo, try to parse the saved draft (parse
failures caught and ignored), seed the demo draft when nothing loaded and
demo should activate and a seed was supplied, and set the visited marker
unless a demo parameter is present or it is already set. -/
def loadDraft (cell : Option (Blob Draft)) (hasVisited : Bool)
    (hasUrlDemoParam : Bool) (initialDraft : Option Draft) : LoadOut :=
  let hasSavedDraft := cell.isSome
  let shouldDemo := hasUrlDemoParam || (!hasVisited && !hasSavedDraft)
  let loaded : Option Draft :=
    match cell with
    | some (Blob.valid d) => some d
    | some Blob.malformed => none
    | none => none
  let loadedFromStorage := loaded.isSome
  let st0 : Draft × Bool :=
    match loaded with
    | some d => (d, false)
    | none =>
      match !loadedFromStorage && shouldDemo, initialDraft with
      | true, some seed => (seed, true)
      | _, _ => (DEFAULT_DRAFT, false)
  let visitedAfter := if !hasUrlDemoParam && !hasVisited then true else hasVisited
  { draft := st0.1, isDemoMode := st0.2, visitedAfter := visitedAfter }

/-- The single-draft store's run-time state: the in-memory draft, the demo
flag, the pending debounce timer (due time and the `newDraft` captured by the
`setTimeout` closure, `none` when no timer is outstanding), and the storage
cell under the draft key. -/
structure SDState where
  draft : Draft
  isDemoMode : Bool
  pending : Option (Nat × Draft)
  cell : Option (Blob Draft)
deriving DecidableEq

/-- `saveDraft(newDraft)` of the single-draft store (lines 130–144), executed
at time `t`: the in-memory draft is replaced synchronously; any pending timer
is cleared and a fresh one is scheduled to write `newDraft` at
`t + DEBOUNCE_MS`. -/
def saveDraftAt (st : SDState) (newDraft : Draft) (t : Nat) : SDState :=
  { st with draft := newDraft, pending := some (t + DEBOUNCE_MS, newDraft) }

/-- The debounce timer firing: the captured draft is serialized into the
storage cell and the timer slot empties.  (Write failures are swallowed by
the code; the model keeps the successful write.) -/
def fireTimer (st : SDState) : SDState :=
  match st.pending with
  | some (_, d) => { st with cell := some (Blob.valid d), pending := none }
  | none => st

/-- `dismissDemo()` (lines 181–191): clear the demo flag, reset the in-memory
draft, and remove the persisted entry synchronously.  The pending timer is
not touched — the code never calls `clearTimeout` here. -/
def dismissDemo (st : SDState) : SDState :=
  { st with isDemoMode := false, draft := DEFAULT_DRAFT, cell := none }

/-- `updateTitle` (lines 146–151): the draft handed to `saveDraft`. -/
def updateTitle (d : Draft) (title : String) : Draft :=
  { d with title := title }

/-- `updateContent` (lines 153–158): the draft handed to `saveDraft`. -/
def updateContent (d : Draft) (content : String) : Draft :=
  { d with content := content }

/-- `addSource` (lines 160–166): append the new source to the end. -/
def addSource (d : Draft) (s : Source) : Draft :=
  { d with sources := d.sources ++ [s] }

/-- `removeSource` (lines 168–174): keep exactly the sources whose id differs
from the given one. -/
def removeSource (d : Draft) (id : String) : Draft :=
  { d with sources := d.sources.filter (fun s => s.id ≠ id) }

/-- The writes that actually reach storage for a time-ordered trace of
`saveDraft` calls, each pair being (call time, draft passed).  A call at time
`t` schedules a write at `t + DEBOUNCE_MS`; the next call cancels it via
`clearTimeout` exactly when it runs before that due time.  Each surviving
write carries the draft captured by its closure. -/
def debounceWrites : List (Nat × Draft) → List (Nat × Draft)
  | [] => []
  | (t, d) :: rest =>
    match rest with
    | [] => [(t + DEBOUNCE_MS, d)]
    | (t2, _) :: _ =>
      if t2 < t + DEBOUNCE_MS then debounceWrites rest
      else (t + DEBOUNCE_MS, d) :: debounceWrites rest

/-! ### Sample data used by witnesses and scenario conjuncts -/

/-- A demo seed draft, as the caller of `useLocalDraft` would supply. -/
def demoSeed : Draft :=
  { title := "Demo", content := "<p>Welcome to notecraft</p>", sources := [] }

/-- A previously persisted user draft. -/
def dSaved : Draft :=
  { title := "Mine", content := "<p>My text</p>", sources := [] }

/-- A multi-draft entry with deliberately stale derived fields, to exercise
their recomputation on save. -/
def dHello : DraftFull :=
  { id := "a", title := "T", updatedAt := 0, wordCount := 99, sourceCount := 99,
    excerpt := "stale", content := "<p>Hello world</p>", sources := [] }

/-- First draft of the recency-ordering scenario. -/
def dOne : DraftFull :=
  { id := "one", title := "first", updatedAt := 0, wordCount := 0,
    sourceCount := 0, excerpt := "", content := "", sources := [] }

/-- Second draft of the recency-ordering scenario. -/
def dTwo : DraftFull :=
  { id := "two", title := "second", updatedAt := 0, wordCount := 0,
    sourceCount := 0, excerpt := "", content := "", sources := [] }

/-! ### Helper lemmas -/

/-- An element written by `List.set` at an in-bounds index is a member of the
resulting list. -/
theorem mem_set_self {α : Type} (l : List α) (i : Nat) (a : α)
    (h : i < l.length) : a ∈ l.set i a := by
  have h2 : i < (l.set i a).length := by simpa using h
  have h3 := List.getElem_mem h2
  rwa [List.getElem_set_self h2] at h3

/-- In a trace whose timestamps are pairwise nondecreasing along consecutive
entries, the head's timestamp bounds the last one. -/
theorem chain_head_le_getLast :
    ∀ (ms : List (Nat × Draft)) (hne : ms ≠ []),
      List.Chain' (fun a b => a.1 ≤ b.1) ms →
      (ms.head hne).1 ≤ (ms.getLast hne).1 := by
  intro ms
  induction ms with
  | nil => intro hne; exact absurd rfl hne
  | cons x rest ih =>
    intro hne hchain
    cases rest with
    | nil => simp
    | cons y rest2 =>
      have hxy : x.1 ≤ y.1 := (List.chain'_cons.mp hchain).1
      have htail := (List.chain'_cons.mp hchain).2
      have hrec := ih (by simp) htail
      rw [List.getLast_cons (by simp), List.head_cons]
      calc x.1 ≤ y.1 := hxy
        _ ≤ _ := by simpa using hrec

/-- A nonempty trace of `saveDraft` calls whose timestamps are nondecreasing
and whose whole span is shorter than the debounce window produces exactly one
storage write: each non-final call's timer is cancelled by its successor, and
the final call's write fires with the final draft. -/
theorem debounceWrites_eq_single :
    ∀ (ms : List (Nat × Draft)) (hne : ms ≠ []),
      List.Chain' (fun a b => a.1 ≤ b.1) ms →
      (ms.getLast hne).1 < (ms.head hne).1 + DEBOUNCE_MS →
      debounceWrites ms =
        [((ms.getLast hne).1 + DEBOUNCE_MS, (ms.getLast hne).2)] := by
  intro ms
  induction ms with
  | nil => intro hne; exact absurd rfl hne
  | cons x rest ih =>
    intro hne hchain hwin
    cases rest with
    | nil => simp [debounceWrites]
    | cons y rest2 =>
      have hxy : x.1 ≤ y.1 := (List.chain'_cons.mp hchain).1
      have htail := (List.chain'_cons.mp hchain).2
      have hlast : ((x :: y :: rest2).getLast hne) =
          ((y :: rest2).getLast (by simp)) := List.getLast_cons (by simp)
      have hyle : y.1 ≤ ((y :: rest2).getLast (by simp)).1 := by
        simpa using chain_head_le_getLast (y :: rest2) (by simp) htail
      have hcancel : y.1 < x.1 + DEBOUNCE_MS := by
        calc y.1 ≤ ((y :: rest2).getLast (by simp)).1 := hyle
          _ < x.1 + DEBOUNCE_MS := by
            have := hwin
            rw [hlast] at this
            simpa using this
      have hwin2 : ((y :: rest2).getLast (by simp)).1 < y.1 + DEBOUNCE_MS := by
        have hspan : ((y :: rest2).getLast (by simp)).1 < x.1 + DEBOUNCE_MS := by
          have := hwin
          rw [hlast] at this
          simpa using this
      -- the span from y onward is inside the window as well
        calc ((y :: rest2).getLast (by simp)).1
            < x.1 + DEBOUNCE_MS := hspan
          _ ≤ y.1 + DEBOUNCE_MS := Nat.add_le_add_right hxy _
      have hstep : debounceWrites (x :: y :: rest2) =
          debounceWrites (y :: rest2) := by
        simp [debounceWrites, hcancel]
      rw [hstep, ih (by simp) htail hwin2, hlast]

/-! ### Claim theorems -/

/-- C5: for every HTML string `h`, `makeExcerpt h` has length at most 80 plus
at most one trailing ellipsis character (so at most 81 in total); the ellipsis
is appended exactly when the stripped text exceeds 80 characters, in which
case the excerpt is the first 80 stripped characters followed by one `…`; and
when the stripped text is at most 80 characters long, `makeExcerpt h` equals
`stripHtml h` exactly, with no ellipsis. -/
theorem excerpt_length_spec (h : String) :
    (makeExcerpt h).length ≤ 81 ∧
    ((stripHtml h).length ≤ 80 → makeExcerpt h = stripHtml h) ∧
    (80 < (stripHtml h).length →
      (makeExcerpt h).data = (stripHtml h).data.take 80 ++ ['…'] ∧
      (makeExcerpt h).length = 81) := by
  by_cases hlen : 80 < (stripHtml h).length
  · have h80 : ((stripHtml h).data.take 80).length = 80 := by
      rw [List.length_take]
      exact Nat.min_eq_left (Nat.le_of_lt hlen)
    have hme : makeExcerpt h = ⟨(stripHtml h).data.take 80 ++ ['…']⟩ := by
      unfold makeExcerpt
      simp [hlen]
    have hlen2 : (makeExcerpt h).length = 81 := by
      rw [hme]
      show ((stripHtml h).data.take 80 ++ ['…']).length = 81
      rw [List.length_append, h80]
      rfl
    refine ⟨by omega, fun hle => by omega, fun _ => ⟨by rw [hme], hlen2⟩⟩
  · push_neg at hlen
    have hme : makeExcerpt h = stripHtml h := by
      unfold makeExcerpt
      simp [Nat.not_lt.mpr hlen]
    refine ⟨by rw [hme]; omega, fun _ => hme, fun hgt => by omega⟩

/-- Witness for C5: the theorem applied to a short input (no truncation) and
to a 90-character input (truncation to 81 visible characters). -/
theorem excerpt_length_spec_witness :
    makeExcerpt "<p>Hello world</p>" = stripHtml "<p>Hello world</p>" ∧
    (makeExcerpt (String.mk (List.replicate 90 'x'))).length = 81 := by
  refine ⟨(excerpt_length_spec "<p>Hello world</p>").2.1 (by decide),
    ((excerpt_length_spec (String.mk (List.replicate 90 'x'))).2.2 (by decide)).2⟩

/-- C10: for every HTML string `h`, `countWords h` equals the number of
non-empty whitespace-delimited tokens of the stripped plain text (so it is
trivially nonnegative), and empty content counts zero words. -/
theorem countWords_tokens_spec (h : String) :
    countWords h =
      ((splitWsAux (stripHtml h).data []).filter (fun t => t ≠ [])).length ∧
    0 ≤ countWords h ∧ countWords "" = 0 := by
  refine ⟨?_, Nat.zero_le _, rfl⟩
  unfold countWords
  by_cases he : stripHtml h = ""
  · have hdata : (stripHtml h).data = [] := by
      rw [he]
    simp only [he, if_true, hdata]
    decide
  · simp [he]

/-- C9: adding a fresh-id source and then removing that id round-trips to the
original source list, and `removeSource` removes every entry carrying the
given id (duplicates included), never erroring. -/
theorem add_remove_roundtrip (d : Draft) (s : Source)
    (hfresh : ∀ x ∈ d.sources, x.id ≠ s.id) :
    (removeSource (addSource d s) s.id).sources = d.sources ∧
    ∀ (d2 : Draft) (i : String), ∀ x ∈ (removeSource d2 i).sources, x.id ≠ i := by
  constructor
  · simp only [removeSource, addSource, List.filter_append]
    have h1 : d.sources.filter (fun x => x.id ≠ s.id) = d.sources :=
      List.filter_eq_self.mpr (fun a ha => by simpa using hfresh a ha)
    have h2 : [s].filter (fun x => x.id ≠ s.id) = [] := by simp
    rw [h1, h2, List.append_nil]
  · intro d2 i x hx
    have := List.of_mem_filter hx
    simpa using this

/-- Witness for C9: scenario D from the specification — add
`{id:"a", type:link, title:"example.com", url:"https://example.com"}` to an
empty list, then remove id `"a"`; the result is empty. -/
theorem add_remove_roundtrip_witness :
    (removeSource
      (addSource { title := "", content := "", sources := [] }
        { id := "a", type := SourceType.link, title := "example.com",
          url := some "https://example.com", content := none })
      "a").sources = [] := by
  exact (add_remove_roundtrip _ _ (by decide)).1

/-- C7: `dismissDemo` clears the demo flag, resets the in-memory draft to the
empty draft, and erases the persisted entry in the very state it returns —
synchronously, without touching the debounce timer slot. -/
theorem dismissDemo_spec (st : SDState) :
    (dismissDemo st).isDemoMode = false ∧
    (dismissDemo st).draft = DEFAULT_DRAFT ∧
    (dismissDemo st).cell = none ∧
    (dismissDemo st).pending = st.pending :=
  ⟨rfl, rfl, rfl, rfl⟩

/-- C1: every `saveDraft` call on the multi-draft store stores an entry for
the given draft whose `wordCount`, `sourceCount` and `excerpt` are recomputed
from `content`/`sources`, regardless of the values the caller passed in those
fields; and the derived fields of the enriched record depend only on
`content`/`sources`, so two saves with the same content and sources derive
identical metadata both times. -/
theorem saveDraft_derived_fields (now : Nat) (draft : DraftFull)
    (prev : List DraftFull) :
    (∃ e ∈ saveDraft now draft prev,
      e.id = draft.id ∧ e.content = draft.content ∧ e.sources = draft.sources ∧
      e.wordCount = countWords draft.content ∧
      e.sourceCount = draft.sources.length ∧
      e.excerpt = makeExcerpt draft.content) ∧
    (∀ (n1 n2 : Nat) (d1 d2 : DraftFull),
      d1.content = d2.content → d1.sources = d2.sources →
      (enrich n1 d1).wordCount = (enrich n2 d2).wordCount ∧
      (enrich n1 d1).sourceCount = (enrich n2 d2).sourceCount ∧
      (enrich n1 d1).excerpt = (enrich n2 d2).excerpt) := by
  constructor
  · refine ⟨enrich now draft, ?_, rfl, rfl, rfl, rfl, rfl, rfl⟩
    unfold saveDraft
    rw [List.mem_mergeSort]
    cases hidx : prev.findIdx? (fun d => d.id = draft.id) with
    | none => exact List.mem_cons_self _ _
    | some idx =>
      have hlt : idx < prev.length :=
        (List.findIdx?_eq_some_iff_findIdx_eq.mp hidx).1
      exact mem_set_self prev idx (enrich now draft) hlt
  · intro n1 n2 d1 d2 hc hs
    unfold enrich
    rw [hc, hs]
    exact ⟨rfl, rfl, rfl⟩

/-- Witness for C1: saving `dHello` (whose carried `wordCount`/`sourceCount`/
`excerpt` are stale) into an empty collection stores an entry whose derived
fields come from its content and sources, and two enrichments at different
times derive the same excerpt. -/
theorem saveDraft_derived_fields_witness :
    (∃ e ∈ saveDraft 5 dHello [],
      e.wordCount = countWords dHello.content ∧ e.wordCount = 2) ∧
    (enrich 1 dHello).excerpt = (enrich 2 dHello).excerpt := by
  obtain ⟨⟨e, he, -, -, -, hw, -, -⟩, hdet⟩ := saveDraft_derived_fields 5 dHello []
  refine ⟨⟨e, he, hw, ?_⟩, (hdet 1 2 dHello dHello rfl rfl).2.2⟩
  rw [hw]
  decide

/-- C4: after any `saveDraft` call on the multi-draft store the resulting
collection is pairwise sorted by `updatedAt` descending; and concretely, two
drafts saved at times 100 and 200 enumerate as the 200-draft first, then the
100-draft. -/
theorem saveDraft_sorted_desc (now : Nat) (draft : DraftFull)
    (prev : List DraftFull) :
    List.Pairwise (fun a b => b.updatedAt ≤ a.updatedAt)
      (saveDraft now draft prev) ∧
    (saveDraft 200 dTwo (saveDraft 100 dOne [])).map DraftFull.updatedAt =
      [200, 100] ∧
    (saveDraft 200 dTwo (saveDraft 100 dOne [])).map DraftFull.id =
      ["two", "one"] := by
  have hgen : ∀ (n : Nat) (d : DraftFull) (p : List DraftFull),
      List.Pairwise (fun a b => b.updatedAt ≤ a.updatedAt) (saveDraft n d p) := by
    intro n d p
    unfold saveDraft
    have hsorted := @List.sorted_mergeSort DraftFull byRecency
      (fun a b c hab hbc => by
        simp only [byRecency, decide_eq_true_eq] at *
        omega)
      (fun a b => by
        simp only [byRecency, Bool.or_eq_true, decide_eq_true_eq]
        omega)
      (match p.findIdx? (fun x => x.id = d.id) with
       | some idx => p.set idx (enrich n d)
       | none => enrich n d :: p)
    exact hsorted.imp (fun hab => by
      simpa [byRecency] using hab)
  have hone : saveDraft 100 dOne [] = [enrich 100 dOne] := by
    unfold saveDraft
    simp
  have htwo : saveDraft 200 dTwo [enrich 100 dOne] =
      [enrich 200 dTwo, enrich 100 dOne] := by
    unfold saveDraft
    have hfind : [enrich 100 dOne].findIdx? (fun x => x.id = dTwo.id) = none := by
      decide
    rw [hfind]
    exact List.mergeSort_of_sorted (by decide)
  refine ⟨hgen now draft prev, ?_, ?_⟩ <;> rw [hone, htwo] <;> rfl

/-- C2 counterexample: two concrete activations refute the claimed branch
structure.  First, on a first-ever visit (no prior-visit marker) with an
explicit demo request and no stored blob, the demo draft is loaded with the
demo flag true — but the prior-visit marker is NOT set, because the code
skips marking when the demo URL parameter is present (to keep the demo
repeatable).  Second, on a first-ever visit with no demo request and a
malformed stored blob, no persisted draft can be loaded, yet the claimed
demo branch ("no prior-visit marker exists") does not activate either: the
blob's mere presence makes `hasSavedDraft` true before parsing, so the store
yields the empty draft with the demo flag false. -/
theorem loadDraft_branch_counterexample :
    (loadDraft none false true (some demoSeed)).isDemoMode = true ∧
    (loadDraft none false true (some demoSeed)).draft = demoSeed ∧
    (loadDraft none false true (some demoSeed)).visitedAfter = false ∧
    (loadDraft (some Blob.malformed) false false (some demoSeed)).draft
      = DEFAULT_DRAFT ∧
    (loadDraft (some Blob.malformed) false false (some demoSeed)).isDemoMode
      = false := by
  decide

/-- C2 (amended): on first activation with a demo seed supplied — if a
persisted draft exists in storage and parses, it is loaded with the demo
flag false; otherwise, if an explicit demo request is present, or no
prior-visit marker exists and no stored blob is present at all (a
malformed-but-present blob counts as a saved draft here), the demo draft is
loaded with the demo flag true, and the prior-visit marker ends up set
exactly when the demo request is absent or the marker was already set; in
all remaining cases the store loads the empty draft with the demo flag
false.  The three branches cover every storage cell, marker and parameter
combination. -/
theorem loadDraft_spec (cell : Option (Blob Draft)) (visited demoParam : Bool)
    (seed : Draft) :
    (∀ d, cell = some (Blob.valid d) →
      (loadDraft cell visited demoParam (some seed)).draft = d ∧
      (loadDraft cell visited demoParam (some seed)).isDemoMode = false) ∧
    ((∀ d, cell ≠ some (Blob.valid d)) →
      (demoParam = true ∨ (visited = false ∧ cell = none)) →
      (loadDraft cell visited demoParam (some seed)).draft = seed ∧
      (loadDraft cell visited demoParam (some seed)).isDemoMode = true ∧
      ((loadDraft cell visited demoParam (some seed)).visitedAfter = true ↔
        (demoParam = false ∨ visited = true))) ∧
    ((∀ d, cell ≠ some (Blob.valid d)) →
      demoParam = false → (visited = true ∨ cell = some Blob.malformed) →
      (loadDraft cell visited demoParam (some seed)).draft = DEFAULT_DRAFT ∧
      (loadDraft cell visited demoParam (some seed)).isDemoMode = false) := by
  refine ⟨?_, ?_, ?_⟩
  · intro d hcell
    subst hcell
    cases visited <;> cases demoParam <;> simp [loadDraft]
  · intro hnv hcond
    rcases cell with _ | b
    · rcases hcond with hp | ⟨hv, -⟩
      · subst hp
        cases visited <;> simp [loadDraft]
      · subst hv
        cases demoParam <;> simp [loadDraft]
    · rcases b with d | _
      · exact absurd rfl (hnv d)
      · rcases hcond with hp | ⟨-, hnone⟩
        · subst hp
          cases visited <;> simp [loadDraft]
        · exact absurd hnone (by simp)
  · intro hnv hp hrest
    subst hp
    rcases cell with _ | b
    · rcases hrest with hv | hmal
      · subst hv
        simp [loadDraft]
      · exact absurd hmal (by simp)
    · rcases b with d | _
      · exact absurd rfl (hnv d)
      · cases visited <;> simp [loadDraft]

/-- Witness for C2: the amended theorem applied at concrete points of all
three branches — a parsed persisted draft wins over a demo request; an
absent blob on a first visit seeds the demo and sets the marker; a malformed
blob with an explicit demo request seeds the demo; an absent blob on a
repeat visit and a malformed blob on a first visit both yield the empty
draft. -/
theorem loadDraft_spec_witness :
    (loadDraft (some (Blob.valid dSaved)) false true (some demoSeed)).draft
      = dSaved ∧
    (loadDraft none false false (some demoSeed)).isDemoMode = true ∧
    (loadDraft none false false (some demoSeed)).visitedAfter = true ∧
    (loadDraft (some Blob.malformed) false true (some demoSeed)).isDemoMode
      = true ∧
    (loadDraft none true false (some demoSeed)).draft = DEFAULT_DRAFT ∧
    (loadDraft (some Blob.malformed) false false (some demoSeed)).draft
      = DEFAULT_DRAFT := by
  refine ⟨((loadDraft_spec (some (Blob.valid dSaved)) false true demoSeed).1
    dSaved rfl).1, ?_, ?_, ?_, ?_, ?_⟩
  · exact ((loadDraft_spec none false false demoSeed).2.1
      (fun d h => by cases h) (Or.inr ⟨rfl, rfl⟩)).2.1
  · exact ((loadDraft_spec none false false demoSeed).2.1
      (fun d h => by cases h) (Or.inr ⟨rfl, rfl⟩)).2.2.mpr (Or.inl rfl)
  · exact ((loadDraft_spec (some Blob.malformed) false true demoSeed).2.1
      (fun d h => by simp at h) (Or.inl rfl)).2.1
  · exact ((loadDraft_spec none true false demoSeed).2.2
      (fun d h => by cases h) rfl (Or.inl rfl)).1
  · exact ((loadDraft_spec (some Blob.malformed) false false demoSeed).2.2
      (fun d h => by simp at h) rfl (Or.inr rfl)).1

/-- C6 counterexample: a malformed single-draft blob is not treated the same
as an absent one.  On a first-ever visit with no demo request and a demo seed
supplied, an absent blob yields the demo draft with the demo flag true, but a
malformed blob still counts as a saved draft for demo detection and yields
the empty draft with the demo flag false — not the state absence would
produce. -/
theorem malformed_blob_differs_from_absent :
    (loadDraft (some Blob.malformed) false false (some demoSeed)).isDemoMode
      = false ∧
    (loadDraft (some Blob.malformed) false false (some demoSeed)).draft
      = DEFAULT_DRAFT ∧
    (loadDraft none false false (some demoSeed)).isDemoMode = true ∧
    (loadDraft none false false (some demoSeed)).draft = demoSeed := by
  decide

/-- C6 (amended): when the stored blob is absent or malformed, both stores
recover without failing — the multi-draft store initializes to the empty
collection, and the single-draft store proceeds to the demo or empty state;
for a malformed (present but unparseable) blob, the presence of the key still
counts as a saved draft for first-visit demo detection, so the store yields
the demo draft only on an explicit demo request and the empty draft
otherwise. -/
theorem storage_failure_recovery (visited demoParam : Bool) (seed : Draft) :
    loadAll none = [] ∧
    loadAll (some Blob.malformed) = [] ∧
    (demoParam = true →
      (loadDraft (some Blob.malformed) visited demoParam (some seed)).draft
        = seed ∧
      (loadDraft (some Blob.malformed) visited demoParam (some seed)).isDemoMode
        = true) ∧
    (demoParam = false →
      (loadDraft (some Blob.malformed) visited demoParam (some seed)).draft
        = DEFAULT_DRAFT ∧
      (loadDraft (some Blob.malformed) visited demoParam (some seed)).isDemoMode
        = false) := by
  refine ⟨rfl, rfl, ?_, ?_⟩
  · intro hp
    subst hp
    cases visited <;> simp [loadDraft]
  · intro hp
    subst hp
    cases visited <;> simp [loadDraft]

/-- Witness for C6: the amended theorem applied with and without an explicit
demo request over a malformed blob. -/
theorem storage_failure_recovery_witness :
    loadAll (some Blob.malformed) = [] ∧
    (loadDraft (some Blob.malformed) false true (some demoSeed)).draft
      = demoSeed ∧
    (loadDraft (some Blob.malformed) false false (some demoSeed)).draft
      = DEFAULT_DRAFT := by
  refine ⟨(storage_failure_recovery false true demoSeed).2.1, ?_, ?_⟩
  · exact ((storage_failure_recovery false true demoSeed).2.2.1 rfl).1
  · exact ((storage_failure_recovery false false demoSeed).2.2.2 rfl).1

/-- C3: every single-draft mutation goes through `saveDraft`, which replaces
the in-memory draft synchronously and overwrites the pending timer slot with
a fresh write due `DEBOUNCE_MS` after the call (cancel-and-reschedule,
trailing edge); consequently a nonempty time-ordered trace of N mutations
whose whole span is shorter than the debounce window produces exactly one
persisted write, carrying the draft of the Nth (last) mutation, at its time
plus the debounce delay. -/
theorem debounce_coalescing_spec (ms : List (Nat × Draft)) (hne : ms ≠ [])
    (hmono : List.Chain' (fun a b => a.1 ≤ b.1) ms)
    (hwin : (ms.getLast hne).1 < (ms.head hne).1 + DEBOUNCE_MS) :
    debounceWrites ms =
      [((ms.getLast hne).1 + DEBOUNCE_MS, (ms.getLast hne).2)] ∧
    (∀ (st : SDState) (nd : Draft) (t : Nat),
      (saveDraftAt st nd t).draft = nd ∧
      (saveDraftAt st nd t).pending = some (t + DEBOUNCE_MS, nd)) :=
  ⟨debounceWrites_eq_single ms hne hmono hwin, fun _ _ _ => ⟨rfl, rfl⟩⟩

/-- Witness for C3: three mutations at 0 ms, 100 ms and 300 ms — a span of
300 ms, inside the 500 ms window — produce the single write (800, demoSeed),
reflecting the third mutation only. -/
theorem debounce_coalescing_spec_witness :
    debounceWrites [(0, DEFAULT_DRAFT), (100, dSaved), (300, demoSeed)] =
      [(800, demoSeed)] := by
  exact (debounce_coalescing_spec
    [(0, DEFAULT_DRAFT), (100, dSaved), (300, demoSeed)]
    (by decide) (by simp [List.chain'_cons]) (by decide)).1

/-- C8: `dismissDemo` leaves an outstanding debounce timer in place — after a
mutation at time `t` schedules a write and `dismissDemo` runs at a time
before that write is due, the pending slot still holds the pre-dismissal
draft, and when the timer fires it writes that draft back to storage,
re-creating the entry `dismissDemo` had just erased. -/
theorem dismiss_keeps_pending_write (st : SDState) (d : Draft) (t tDis : Nat)
    (hbefore : tDis < t + DEBOUNCE_MS) :
    (dismissDemo (saveDraftAt st d t)).pending = some (t + DEBOUNCE_MS, d) ∧
    (dismissDemo (saveDraftAt st d t)).cell = none ∧
    (fireTimer (dismissDemo (saveDraftAt st d t))).cell
      = some (Blob.valid d) ∧
    (fireTimer (dismissDemo (saveDraftAt st d t))).draft = DEFAULT_DRAFT :=
  ⟨rfl, rfl, rfl, rfl⟩

/-- Witness for C8: a mutation at 0 ms followed by `dismissDemo` at 100 ms —
inside the 500 ms window — leaves the write pending, and its firing restores
the dismissed draft into storage. -/
theorem dismiss_keeps_pending_write_witness :
    (dismissDemo (saveDraftAt
      { draft := demoSeed, isDemoMode := true, pending := none, cell := none }
      demoSeed 0)).cell = none ∧
    (fireTimer (dismissDemo (saveDraftAt
      { draft := demoSeed, isDemoMode := true, pending := none, cell := none }
      demoSeed 0))).cell = some (Blob.valid demoSeed) := by
  have h := dismiss_keeps_pending_write
    { draft := demoSeed, isDemoMode := true, pending := none, cell := none }
    demoSeed 0 100 (by decide)
  exact ⟨h.2.1, h.2.2.1⟩

end Notecraft
